import Mathlib

/-!
Verification of the mas_project staged data pipeline: a shallow embedding of
the Collection, Feature and Prediction stages and of the Orchestrator that
sequences them, with theorems settling the specified behaviour of each.

Conventions of the embedding:
* tabular values are exact rationals (`ℚ`) or strings; the floating-point
  standard deviation computed by pandas is abstracted as a function parameter
  `std`, constrained where a theorem needs it by `(std xs) ^ 2 = sampleVar xs`;
* the scikit-learn estimators are external collaborators, abstracted as an
  `Estimators` record over an opaque estimator type;
* optional-library availability (`import sklearn`, `import joblib`) is a
  boolean parameter selecting between the normal path and the documented
  `except ImportError` fallback;
* a Python function that may raise returns `Except String α`, with
  `Except.error` standing for an exception propagating to the caller.
-/

/-- A cell value of a raw tabular dataset: numeric or textual. -/
inductive Val where
  | num (q : ℚ)
  | str (s : String)
deriving DecidableEq

/-- A raw dataset row as loaded from CSV; `none` marks a missing cell. -/
abbrev RawRow := List (Option Val)

/-- `DataFrame.drop_duplicates()` keeping the first occurrence of each row:
`seen` accumulates the rows already emitted. -/
def dropDupAux (seen : List RawRow) : List RawRow → List RawRow
  | [] => []
  | r :: rs => if r ∈ seen then dropDupAux seen rs else r :: dropDupAux (r :: seen) rs

def dropDuplicates (rows : List RawRow) : List RawRow := dropDupAux [] rows

/-- The missing-value step of `DataCollectorAgent._clean_data`: `df.dropna()`
(drop any row containing a missing cell), guarded by the code's
`if df.isnull().any().any()` test. -/
def dropnaStep (rows : List RawRow) : List RawRow :=
  if rows.any (fun r => r.any (fun c => c.isNone)) then
    rows.filter (fun r => r.all (fun c => c.isSome))
  else rows

/-- `DataCollectorAgent._clean_data`: exact-duplicate rows removed first,
then rows containing a missing cell. -/
def cleanData (rows : List RawRow) : List RawRow := dropnaStep (dropDuplicates rows)

/-- A typed column, mirroring a pandas Series of numeric or object dtype
(columns are homogeneous, as `select_dtypes` classifies whole columns). -/
inductive Column where
  | numeric (xs : List ℚ)
  | categorical (ss : List String)
deriving DecidableEq

/-- A DataFrame: ordered, named, typed columns. -/
structure Df where
  cols : List (String × Column)
deriving DecidableEq

def Column.size : Column → Nat
  | .numeric xs => xs.length
  | .categorical ss => ss.length

/-- `Series.nunique()`: the number of distinct values. -/
def Column.nunique : Column → Nat
  | .numeric xs => xs.dedup.length
  | .categorical ss => ss.dedup.length

def Df.ncols (df : Df) : Nat := df.cols.length

/-- `len(df)`: the number of rows. -/
def Df.nrows (df : Df) : Nat :=
  match df.cols with
  | [] => 0
  | c :: _ => c.2.size

/-- `df.shape` as `(rows, columns)`. -/
def Df.shape (df : Df) : Nat × Nat := (df.nrows, df.ncols)

/-- `name in df.columns`. -/
def Df.hasCol (df : Df) (name : String) : Bool := df.cols.any (fun nc => nc.1 == name)

/-- `df[name]` (first column of that name; CSV headers are unique). -/
def Df.getCol (df : Df) (name : String) : Column :=
  ((df.cols.find? (fun nc => nc.1 == name)).map Prod.snd).getD (Column.numeric [])

/-- `df.drop(columns=[name])`. -/
def Df.dropCol (df : Df) (name : String) : Df :=
  ⟨df.cols.filter (fun nc => nc.1 != name)⟩

/-- `Series.mean()`. -/
def mean (xs : List ℚ) : ℚ := xs.sum / xs.length

/-- The square of pandas `Series.std()`: sample variance with `ddof = 1`. -/
def sampleVar (xs : List ℚ) : ℚ :=
  (xs.map (fun x => (x - mean xs) ^ 2)).sum / ((xs.length : ℚ) - 1)

/-- The numeric-normalization loop body of
`FeatureProcessorAgent._engineer_features`: if the standard deviation is
nonzero, each value is replaced by `(value - mean) / std`, else the column is
untouched.  The floating-point `std` computation is abstracted as the
parameter `std`; theorems constrain it by `(std xs) ^ 2 = sampleVar xs`. -/
def normalizeNumeric (std : List ℚ → ℚ) (xs : List ℚ) : List ℚ :=
  if std xs ≠ 0 then xs.map (fun x => (x - mean xs) / std xs) else xs

/-- Categorical encoding of `_engineer_features`: each distinct string is
mapped to the index of its class in sorted order (sklearn `LabelEncoder`
sorts its classes; the `pd.Categorical(...).codes` fallback sorts string
categories the same way). -/
def encodeCategorical (ss : List String) : List ℚ :=
  let classes := ss.dedup.insertionSort (fun a b => a ≤ b)
  ss.map (fun s => ((classes.indexOf s : Nat) : ℚ))

def engineerColumn (std : List ℚ → ℚ) : Column → Column
  | .numeric xs => .numeric (normalizeNumeric std xs)
  | .categorical ss => .numeric (encodeCategorical ss)

/-- `FeatureProcessorAgent._engineer_features`: every column transformed in
place, no column added or removed. -/
def engineerFeatures (std : List ℚ → ℚ) (df : Df) : Df :=
  ⟨df.cols.map (fun nc => (nc.1, engineerColumn std nc.2))⟩

/-- The Python truthiness test `if target_column and target_column in
df.columns` of `FeatureProcessorAgent.run` (`None` and `""` are falsy). -/
def splitsLabel (df : Df) (oc : Option String) : Bool :=
  match oc with
  | some name => (name != "") && df.hasCol name
  | none => false

/-- `FeatureProcessorAgent.run`; a second component `some t` corresponds to
the Python tuple return `(features, target)`, `none` to the plain return. -/
def featureRun (std : List ℚ → ℚ) (df : Df) (oc : Option String) : Df × Option Column :=
  match oc with
  | some name =>
      if splitsLabel df (some name) then
        (engineerFeatures std (df.dropCol name), some (df.getCol name))
      else
        (engineerFeatures std df, none)
  | none => (engineerFeatures std df, none)

/-- The scikit-learn interface used by `PredictionAgent`:
`RandomForestClassifier(n_estimators=100, random_state=42).fit`,
`RandomForestRegressor(...).fit` and `model.predict`, abstracted over an
opaque estimator type. -/
structure Estimators (Est : Type) where
  fitClassifier : Df → Column → Est
  fitRegressor : Df → Column → Est
  predict : Est → Df → List ℚ

/-- The mutable fields of `PredictionAgent`: `self.model` and
`self.model_type`. -/
structure PState (Est : Type) where
  model : Option Est
  modelType : Option String
deriving DecidableEq

/-- `PredictionAgent.__init__`: both fields start unset. -/
def freshPState {Est : Type} : PState Est := ⟨none, none⟩

/-- `PredictionAgent._train_model`; `sk` is scikit-learn availability
(`sk = false` is the `except ImportError` branch, which returns dummy zero
predictions and leaves the agent state untouched). -/
def trainModel {Est : Type} (E : Estimators Est) (sk : Bool) (st : PState Est)
    (features : Df) (target : Column) : PState Est × List ℚ :=
  if sk then
    if target.nunique < 20 then
      let m := E.fitClassifier features target
      (⟨some m, some ("classification")⟩, E.predict m features)
    else
      let m := E.fitRegressor features target
      (⟨some m, some ("regression")⟩, E.predict m features)
  else
    (st, List.replicate features.nrows 0)

/-- `PredictionAgent._predict`: dummy zero predictions when no model is
held, otherwise `model.predict`. -/
def predictModel {Est : Type} (E : Estimators Est) (st : PState Est) (features : Df) :
    List ℚ :=
  match st.model with
  | none => List.replicate features.nrows 0
  | some m => E.predict m features

/-- `PredictionAgent.run`; `Except.error` is the raised `ValueError`. -/
def predictionRun {Est : Type} (E : Estimators Est) (sk : Bool) (st : PState Est)
    (features : Df) (train : Bool) (target : Option Column) :
    Except String (PState Est × List ℚ) :=
  if train then
    match target with
    | none => Except.error ("Target is required for training")
    | some t => Except.ok (trainModel E sk st features t)
  else
    Except.ok (st, predictModel E st features)

/-- `PredictionAgent.load_model`; `jl` is joblib availability and `blob` the
deserialization outcome (`none`: `joblib.load` raised).  Both the
`ImportError` and the generic `Exception` handler catch, log and return, so
every path yields `Except.ok`; `self.model` is assigned only when
`joblib.load` succeeded, and `self.model_type` is never assigned. -/
def loadModel {Est : Type} (st : PState Est) (jl : Bool) (blob : Option Est) :
    Except String (PState Est) :=
  if jl then
    match blob with
    | some m => Except.ok { st with model := some m }
    | none => Except.ok st
  else
    Except.ok st

/-- Which of the three step-3 branches of `Orchestrator.run_pipeline` ran,
as witnessed by its printed progress note. -/
inductive Step3 where
  | trainPred
  | inferPred
  | skipped
deriving DecidableEq

/-- The summary dictionary returned by `Orchestrator.run_pipeline`. -/
structure Summary where
  dataShape : Nat × Nat
  featuresShape : Nat × Nat
  hasPredictions : Bool
  numPredictions : Option Nat
deriving DecidableEq

/-- The fields of `Orchestrator` that persist between `run_pipeline` calls
(`__init__` sets them all to `None` and fresh agents). -/
structure OrchState (Est : Type) where
  pred : PState Est
  data : Option Df
  features : Option Df
  target : Option Column
  predictions : Option (List ℚ)
deriving DecidableEq

/-- `Orchestrator.__init__`. -/
def freshOrch {Est : Type} : OrchState Est := ⟨freshPState, none, none, none, none⟩

def mkSummary (data features : Df) (preds : Option (List ℚ)) : Summary :=
  ⟨data.shape, features.shape, preds.isSome, preds.map List.length⟩

/-- `Orchestrator.run_pipeline`.  Data collection is file input, so the
collected DataFrame `df` is a parameter; the Visualization step only renders
an image and touches no orchestrator field, so it is not modelled.  Note the
tuple test of step 2: `self.target` is assigned only when the feature stage
returned a tuple, otherwise it keeps its value from the previous run, and
`self.predictions` is assigned only when step 3 actually runs. -/
def runPipeline {Est : Type} (E : Estimators Est) (std : List ℚ → ℚ) (sk : Bool)
    (st : OrchState Est) (df : Df) (oc : Option String) (tm : Bool) :
    Except String (OrchState Est × Summary × Step3) :=
  let fr := featureRun std df oc
  let st2 : OrchState Est :=
    match fr.2 with
    | some t => { st with data := some df, features := some fr.1, target := some t }
    | none => { st with data := some df, features := some fr.1 }
  if tm && st2.target.isSome then
    match predictionRun E sk st2.pred fr.1 true st2.target with
    | Except.ok r =>
        Except.ok ({ st2 with pred := r.1, predictions := some r.2 },
          mkSummary df fr.1 (some r.2), Step3.trainPred)
    | Except.error e => Except.error e
  else if (!tm) && st2.pred.model.isSome then
    match predictionRun E sk st2.pred fr.1 false none with
    | Except.ok r =>
        Except.ok ({ st2 with pred := r.1, predictions := some r.2 },
          mkSummary df fr.1 (some r.2), Step3.inferPred)
    | Except.error e => Except.error e
  else
    Except.ok (st2, mkSummary df fr.1 st2.predictions, Step3.skipped)

/-- A trivial estimator instantiation used for concrete evaluations. -/
def UnitE : Estimators Unit :=
  ⟨fun _ _ => (), fun _ _ => (), fun _ f => List.replicate f.nrows 0⟩

/-- A concrete stand-in for the floating-point std computation. -/
def cStd : List ℚ → ℚ := fun _ => 1

def dfEmpty : Df := ⟨[]⟩

def dfA : Df := ⟨[("x", Column.numeric [1, 2]), ("y", Column.numeric [0, 1])]⟩

def dfB : Df := ⟨[("x", Column.numeric [3, 4, 5])]⟩

def freshOrchU : OrchState Unit := freshOrch

theorem dropDupAux_subset (l : List RawRow) :
    ∀ (seen : List RawRow), ∀ r ∈ dropDupAux seen l, r ∈ l := by
  induction l with
  | nil => intro seen r hr; simp [dropDupAux] at hr
  | cons a t ih =>
    intro seen r hr
    by_cases ha : a ∈ seen
    · simp only [dropDupAux, if_pos ha] at hr
      exact List.mem_cons_of_mem _ (ih seen r hr)
    · simp only [dropDupAux, if_neg ha, List.mem_cons] at hr
      rcases hr with h | h
      · exact h ▸ List.mem_cons_self _ _
      · exact List.mem_cons_of_mem _ (ih _ r h)

theorem dropDupAux_not_mem_seen (l : List RawRow) :
    ∀ (seen : List RawRow), ∀ r ∈ dropDupAux seen l, r ∉ seen := by
  induction l with
  | nil => intro seen r hr; simp [dropDupAux] at hr
  | cons a t ih =>
    intro seen r hr
    by_cases ha : a ∈ seen
    · simp only [dropDupAux, if_pos ha] at hr
      exact ih seen r hr
    · simp only [dropDupAux, if_neg ha, List.mem_cons] at hr
      rcases hr with h | h
      · exact h ▸ ha
      · intro hmem
        exact ih (a :: seen) r h (List.mem_cons_of_mem _ hmem)

theorem dropDupAux_nodup (l : List RawRow) :
    ∀ (seen : List RawRow), (dropDupAux seen l).Nodup := by
  induction l with
  | nil => intro seen; simp [dropDupAux]
  | cons a t ih =>
    intro seen
    by_cases ha : a ∈ seen
    · simpa only [dropDupAux, if_pos ha] using ih seen
    · simp only [dropDupAux, if_neg ha]
      refine List.nodup_cons.mpr ⟨?_, ih (a :: seen)⟩
      intro hmem
      exact dropDupAux_not_mem_seen t (a :: seen) a hmem (List.mem_cons_self _ _)

theorem dropDuplicates_nodup (rows : List RawRow) : (dropDuplicates rows).Nodup :=
  dropDupAux_nodup rows []

theorem dropDuplicates_subset (rows : List RawRow) :
    ∀ r ∈ dropDuplicates rows, r ∈ rows :=
  dropDupAux_subset rows []

theorem mem_dropnaStep (rows : List RawRow) :
    ∀ r ∈ dropnaStep rows, r ∈ rows := by
  intro r hr
  unfold dropnaStep at hr
  split at hr
  · exact List.mem_of_mem_filter hr
  · exact hr

theorem dropnaStep_complete (rows : List RawRow) :
    ∀ r ∈ dropnaStep rows, ∀ c ∈ r, c.isSome = true := by
  intro r hr c hc
  unfold dropnaStep at hr
  split at hr
  · have hall := (List.mem_filter.mp hr).2
    exact List.all_eq_true.mp hall c hc
  · next hany =>
    have hfalse : rows.any (fun r => r.any (fun c => c.isNone)) = false := by
      simpa using hany
    have hno := List.any_eq_false.mp hfalse r hr
    have hcell : ¬ c.isNone = true := fun htrue =>
      hno (List.any_eq_true.mpr ⟨c, hc, htrue⟩)
    cases c with
    | none => exact absurd rfl hcell
    | some v => rfl

theorem dropnaStep_nodup (rows : List RawRow) (h : rows.Nodup) :
    (dropnaStep rows).Nodup := by
  unfold dropnaStep
  split
  · exact h.filter _
  · exact h

/-- C6: after `DataCollectorAgent._clean_data`, exact-duplicate rows were
removed first and rows with missing cells second, so the result has no two
identical rows and no missing cell, and every surviving row is a row of the
input (rows are dropped, never filled). -/
theorem clean_data_dedup_then_dropna (rows : List RawRow) :
    cleanData rows = dropnaStep (dropDuplicates rows)
    ∧ (cleanData rows).Nodup
    ∧ (∀ r ∈ cleanData rows, ∀ c ∈ r, c.isSome = true)
    ∧ (∀ r ∈ cleanData rows, r ∈ rows) := by
  refine ⟨rfl, ?_, ?_, ?_⟩
  · exact dropnaStep_nodup _ (dropDuplicates_nodup rows)
  · exact dropnaStep_complete _
  · intro r hr
    exact dropDuplicates_subset rows r (mem_dropnaStep _ r hr)

theorem sum_map_sub_mul (l : List ℚ) (m c : ℚ) :
    (l.map (fun x => (x - m) * c)).sum = (l.sum - l.length * m) * c := by
  induction l with
  | nil => simp
  | cons a t ih =>
    simp only [List.map_cons, List.sum_cons, ih, List.length_cons]
    push_cast
    ring

theorem sum_map_sq_mul (l : List ℚ) (m c : ℚ) :
    (l.map (fun x => ((x - m) * c) ^ 2)).sum
      = (l.map (fun x => (x - m) ^ 2)).sum * c ^ 2 := by
  induction l with
  | nil => simp
  | cons a t ih =>
    simp only [List.map_cons, List.sum_cons, ih]
    ring

theorem sampleVar_ne_zero_facts (xs : List ℚ) (h : sampleVar xs ≠ 0) :
    (xs.length : ℚ) ≠ 0 ∧ (xs.length : ℚ) - 1 ≠ 0 := by
  constructor
  · intro h0
    apply h
    have hnil : xs = [] := List.length_eq_zero.mp (by exact_mod_cast h0)
    simp [sampleVar, hnil]
  · intro h1
    apply h
    unfold sampleVar
    rw [h1, div_zero]

theorem mean_normalized (xs : List ℚ) (s : ℚ) (hn : (xs.length : ℚ) ≠ 0) :
    mean (xs.map (fun x => (x - mean xs) / s)) = 0 := by
  have hmap : xs.map (fun x => (x - mean xs) / s)
      = xs.map (fun x => (x - mean xs) * s⁻¹) := by
    simp [div_eq_mul_inv]
  rw [hmap]
  unfold mean
  rw [sum_map_sub_mul, List.length_map]
  have hz : xs.sum - (xs.length : ℚ) * (xs.sum / (xs.length : ℚ)) = 0 := by
    field_simp
  rw [hz, zero_mul, zero_div]

theorem sampleVar_normalized (xs : List ℚ) (s : ℚ) (hs : s ≠ 0)
    (hs2 : s ^ 2 = sampleVar xs) :
    sampleVar (xs.map (fun x => (x - mean xs) / s)) = 1 := by
  have hvar : sampleVar xs ≠ 0 := hs2 ▸ pow_ne_zero 2 hs
  obtain ⟨hn, hn1⟩ := sampleVar_ne_zero_facts xs hvar
  have hmean := mean_normalized xs s hn
  unfold sampleVar
  rw [hmean]
  simp only [sub_zero, List.map_map, List.length_map]
  have hcomp : ((fun y => y ^ 2) ∘ fun x => (x - mean xs) / s)
      = fun x => ((x - mean xs) * s⁻¹) ^ 2 := by
    funext x
    simp [div_eq_mul_inv]
  rw [hcomp, sum_map_sq_mul]
  have hS : (xs.map (fun x => (x - mean xs) ^ 2)).sum
      = s ^ 2 * ((xs.length : ℚ) - 1) := by
    rw [hs2]
    unfold sampleVar
    field_simp
  rw [hS]
  field_simp

/-- C7: the numeric-normalization step of `_engineer_features`.  When the
standard deviation is nonzero every value is replaced by
`(value - mean) / std` and the resulting column has mean exactly 0 and
sample variance exactly 1 (hence standard deviation 1); a zero-variance
column is returned unmodified, and no division by zero occurs. -/
theorem normalize_numeric_mean_zero_var_one (std : List ℚ → ℚ) (xs : List ℚ)
    (hstd : (std xs) ^ 2 = sampleVar xs) :
    (std xs = 0 → normalizeNumeric std xs = xs)
    ∧ (std xs ≠ 0 →
        normalizeNumeric std xs = xs.map (fun x => (x - mean xs) / std xs)
        ∧ mean (normalizeNumeric std xs) = 0
        ∧ sampleVar (normalizeNumeric std xs) = 1) := by
  constructor
  · intro h0
    simp [normalizeNumeric, h0]
  · intro hne
    have heq : normalizeNumeric std xs = xs.map (fun x => (x - mean xs) / std xs) := by
      simp [normalizeNumeric, hne]
    have hvar : sampleVar xs ≠ 0 := hstd ▸ pow_ne_zero 2 hne
    refine ⟨heq, ?_, ?_⟩
    · rw [heq]
      exact mean_normalized xs (std xs) (sampleVar_ne_zero_facts xs hvar).1
    · rw [heq]
      exact sampleVar_normalized xs (std xs) hne hstd

/-- Witness for C7 at the concrete column `[0, 1, 2]`, whose sample standard
deviation is exactly 1 (so `cStd`, the constant-1 std, satisfies the
constraint there). -/
theorem normalize_numeric_mean_zero_var_one_witness :
    (cStd [0, 1, 2]) ^ 2 = sampleVar [0, 1, 2]
    ∧ (normalizeNumeric cStd [0, 1, 2]
         = ([0, 1, 2] : List ℚ).map (fun x => (x - mean [0, 1, 2]) / cStd [0, 1, 2])
       ∧ mean (normalizeNumeric cStd [0, 1, 2]) = 0
       ∧ sampleVar (normalizeNumeric cStd [0, 1, 2]) = 1) := by
  have hc : (cStd [0, 1, 2]) ^ 2 = sampleVar [0, 1, 2] := by
    norm_num [cStd, sampleVar, mean]
  have hne : cStd [0, 1, 2] ≠ 0 := by norm_num [cStd]
  exact ⟨hc, (normalize_numeric_mean_zero_var_one cStd [0, 1, 2] hc).2 hne⟩

theorem ncols_engineerFeatures (std : List ℚ → ℚ) (df : Df) :
    (engineerFeatures std df).ncols = df.ncols := by
  simp [engineerFeatures, Df.ncols]

theorem length_filter_dropCol (l : List (String × Column)) (name : String)
    (hnd : (l.map Prod.fst).Nodup) (hmem : l.any (fun nc => nc.1 == name) = true) :
    (l.filter (fun nc => nc.1 != name)).length = l.length - 1 := by
  induction l with
  | nil => simp at hmem
  | cons a t ih =>
    rw [List.map_cons, List.nodup_cons] at hnd
    obtain ⟨hna, hndt⟩ := hnd
    by_cases hb : a.1 = name
    · have hkeep : t.filter (fun nc => nc.1 != name) = t := by
        apply List.filter_eq_self.mpr
        intro x hx
        have hxne : x.1 ≠ name := by
          intro hxe
          apply hna
          rw [hb, ← hxe]
          exact List.mem_map_of_mem Prod.fst hx
        simpa using hxne
      have hdrop : (a.1 != name) = false := by simpa using hb
      simp [List.filter_cons, hdrop, hkeep]
    · have hat : t.any (fun nc => nc.1 == name) = true := by
        rcases List.any_eq_true.mp hmem with ⟨x, hx, hpx⟩
        rcases List.mem_cons.mp hx with rfl | hxt
        · exact absurd (by simpa using hpx) hb
        · exact List.any_eq_true.mpr ⟨x, hxt, hpx⟩
      have ht1 : 1 ≤ t.length := by
        rcases List.any_eq_true.mp hat with ⟨x, hx, _⟩
        exact List.length_pos.mpr (List.ne_nil_of_mem hx)
      have hkeepa : (a.1 != name) = true := by simpa using hb
      rw [List.filter_cons, if_pos hkeepa, List.length_cons, ih hndt hat,
        List.length_cons]
      omega

/-- C8: a supplied label column name that is not a column of the DataFrame is
treated exactly like no label column: all columns are processed as features
and no Label Series is returned; and the feature column count equals the
input column count minus one exactly when the label column was present and
split out, and is unchanged otherwise. -/
theorem absent_label_column_ignored (std : List ℚ → ℚ) (df : Df) (name : String)
    (oc : Option String) (hmem : df.hasCol name = false)
    (hnd : (df.cols.map Prod.fst).Nodup) :
    featureRun std df (some name) = featureRun std df none
    ∧ (featureRun std df (some name)).2 = none
    ∧ (featureRun std df oc).1.ncols
        = (if splitsLabel df oc then df.ncols - 1 else df.ncols) := by
  have hsplit : splitsLabel df (some name) = false := by
    simp [splitsLabel, hmem]
  refine ⟨?_, ?_, ?_⟩
  · simp [featureRun, hsplit]
  · simp [featureRun, hsplit]
  · cases oc with
    | none =>
      simp [featureRun, splitsLabel, ncols_engineerFeatures]
    | some n =>
      by_cases hs : splitsLabel df (some n) = true
      · have hhas : df.hasCol n = true := by
          have := hs
          simp only [splitsLabel, Bool.and_eq_true] at this
          exact this.2
        rw [hs]
        simp only [featureRun, hs, if_true, if_pos rfl]
        rw [ncols_engineerFeatures]
        show (df.dropCol n).cols.length = df.ncols - 1
        exact length_filter_dropCol df.cols n hnd (by simpa [Df.hasCol] using hhas)
      · have hs0 : splitsLabel df (some n) = false := by
          simpa using hs
        rw [hs0]
        simp [featureRun, hs0, ncols_engineerFeatures]

def dfC : Df := ⟨[("a", Column.numeric [1]), ("b", Column.numeric [2])]⟩

/-- Witness for C8: `dfC` has columns `a`, `b`; asking for the absent label
column `z` behaves like asking for none, and splitting out the present
column `b` drops the column count by one. -/
theorem absent_label_column_ignored_witness :
    featureRun cStd dfC (some ("z")) = featureRun cStd dfC none
    ∧ (featureRun cStd dfC (some ("z"))).2 = none
    ∧ (featureRun cStd dfC (some ("b"))).1.ncols
        = (if splitsLabel dfC (some ("b")) then dfC.ncols - 1 else dfC.ncols) :=
  absent_label_column_ignored cStd dfC "z" (some ("b")) (by decide) (by decide)

/-- C1: at train time `_train_model` selects the task kind solely from the
number of distinct values of the Label Series (`unique_targets < 20`): 19 or
fewer distinct values select the classification variant and tag, 20 or more
the regression variant and tag. -/
theorem task_kind_selection_by_cardinality {Est : Type} (E : Estimators Est)
    (st : PState Est) (features : Df) (target : Column) :
    (trainModel E true st features target).1.modelType
      = some (if target.nunique ≤ 19 then ("classification") else ("regression"))
    ∧ (trainModel E true st features target).1.model
      = some (if target.nunique ≤ 19 then E.fitClassifier features target
              else E.fitRegressor features target) := by
  by_cases h : target.nunique ≤ 19
  · have hlt : target.nunique < 20 := by omega
    simp [trainModel, hlt, h]
  · have hlt : ¬ target.nunique < 20 := by omega
    simp [trainModel, hlt, h]

/-- C3: invoking `PredictionAgent.run` in inference mode with no model ever
trained or loaded does not fail: it returns the untouched state and a
Prediction Vector of zeros whose length equals the row count of the input
Feature Matrix. -/
theorem untrained_inference_returns_zeros {Est : Type} (E : Estimators Est) (sk : Bool)
    (st : PState Est) (features : Df) (hnone : st.model = none) :
    predictionRun E sk st features false none
      = Except.ok (st, List.replicate features.nrows 0)
    ∧ (List.replicate features.nrows (0 : ℚ)).length = features.nrows := by
  constructor
  · simp [predictionRun, predictModel, hnone]
  · simp

/-- Witness for C3: a fresh agent asked to infer on the 3-row DataFrame
`dfB` returns `[0, 0, 0]`. -/
theorem untrained_inference_returns_zeros_witness :
    predictionRun UnitE true (freshPState : PState Unit) dfB false none
      = Except.ok (freshPState, List.replicate dfB.nrows 0)
    ∧ (List.replicate dfB.nrows (0 : ℚ)).length = dfB.nrows :=
  untrained_inference_returns_zeros UnitE true (freshPState : PState Unit) dfB rfl

/-- C9: `PredictionAgent.run` raises exactly when invoked with `train=True`
and no target (`ValueError`, the spec's `MissingLabel`); the raise happens
before any training, so no successor state (and in particular no model
mutation) is produced in that case. -/
theorem train_without_target_error_iff {Est : Type} (E : Estimators Est) (sk : Bool)
    (st : PState Est) (features : Df) (train : Bool) (target : Option Column) :
    ((predictionRun E sk st features train target).toOption = none
       ↔ (train = true ∧ target = none))
    ∧ ((train = true ∧ target = none) →
        predictionRun E sk st features train target
          = Except.error ("Target is required for training")) := by
  constructor
  · cases train with
    | false => simp [predictionRun, Except.toOption]
    | true =>
      cases target with
      | none => simp [predictionRun, Except.toOption]
      | some t => simp [predictionRun, Except.toOption]
  · rintro ⟨rfl, rfl⟩
    rfl

/-- C10: training establishes the invariant that a model and a task-kind
tag are held together, but `load_model` assigns only `self.model`; after a
successful load into a fresh agent the model is set while `model_type` is
still `none`, so the invariant does not hold after load. -/
theorem load_model_leaves_model_type_unset {Est : Type} (E : Estimators Est)
    (m : Est) (features : Df) (target : Column) :
    loadModel (freshPState : PState Est) true (some m)
      = Except.ok (⟨some m, none⟩ : PState Est)
    ∧ (trainModel E true (freshPState : PState Est) features target).1.model.isSome = true
    ∧ (trainModel E true (freshPState : PState Est) features target).1.modelType.isSome
        = true := by
  refine ⟨rfl, ?_, ?_⟩ <;>
  · unfold trainModel
    by_cases h : target.nunique < 20 <;> simp [h]

/-- C4 counterexample: with a trained classification model held and a path
whose contents cannot be deserialized (`joblib.load` raises), `load_model`
returns normally — `Except.ok`, no error reaches the caller — with the prior
in-memory state intact; so the claimed raising of a `LoadError` to the
caller does not happen. -/
theorem load_failure_no_raise_counterexample :
    loadModel (⟨some (), some ("classification")⟩ : PState Unit) true none
      = Except.ok (⟨some (), some ("classification")⟩ : PState Unit)
    ∧ (loadModel (⟨some (), some ("classification")⟩ : PState Unit) true none).toOption
        ≠ none :=
  ⟨rfl, by decide⟩

/-- C4 (amended): for every path whose contents cannot be deserialized, the
load operation catches the exception, logs it and returns normally — no
error is raised to the caller — and the previously held in-memory model
state is left unchanged (the same holds for the joblib-unavailable
fallback). -/
theorem load_failure_preserves_state {Est : Type} (st : PState Est) (jl : Bool) :
    loadModel st jl none = Except.ok st := by
  unfold loadModel
  cases jl <;> simp

/-- C2 counterexample: on a fresh Coordinator, run 1 trains with label
column `y` of `dfA`; run 2 passes no label column (the Feature stage
produces no Label Series, witnessed by the `none` in the result), yet the
Prediction stage is invoked in training mode (`Step3.trainPred`), because
`self.target` retained run 1's Label Series — refuting the claimed
"only if train and the Feature stage produced a Label Series". -/
theorem prediction_gating_counterexample :
    ((runPipeline UnitE cStd true freshOrchU dfA (some ("y")) true).toOption.bind
      (fun o1 => (runPipeline UnitE cStd true o1.1 dfB none true).toOption.map
        (fun o2 => (o2.2.2, (featureRun cStd dfB none).2))))
      = some (Step3.trainPred, none) := by decide

/-- C2 (amended): the Prediction stage is invoked iff train is true and the
Coordinator's held target after the Feature step is present — that is, the
Feature stage produced a Label Series this run, or one was retained from an
earlier run — or train is false and a model is held; when it is skipped, the
predictions field keeps its prior value and the summary reports predictions
exactly when such a retained value exists (no predictions on a fresh
Coordinator). -/
theorem prediction_gating_amended {Est : Type} (E : Estimators Est) (std : List ℚ → ℚ)
    (sk : Bool) (st : OrchState Est) (df : Df) (oc : Option String) (tm : Bool)
    (out : OrchState Est × Summary × Step3)
    (h : runPipeline E std sk st df oc tm = Except.ok out) :
    (out.2.2 ≠ Step3.skipped ↔
      ((tm = true ∧ (if (featureRun std df oc).2.isSome then (featureRun std df oc).2
                     else st.target).isSome = true)
       ∨ (tm = false ∧ st.pred.model.isSome = true)))
    ∧ (out.2.2 = Step3.skipped →
        out.1.predictions = st.predictions
        ∧ out.2.1.hasPredictions = st.predictions.isSome) := by
  simp only [runPipeline] at h
  rcases hfr : (featureRun std df oc).2 with _ | t <;> rw [hfr] at h
  · cases tm with
    | true =>
      rcases hst : st.target with _ | t0 <;> simp only [hst] at h
      · simp at h
        subst h
        simp [mkSummary]
      · simp [predictionRun] at h
        subst h
        simp
    | false =>
      rcases hm : st.pred.model with _ | m <;> simp only [hm] at h
      · simp at h
        subst h
        simp [mkSummary, hm]
      · simp [predictionRun] at h
        subst h
        simp [hm]
  · cases tm with
    | true =>
      simp [predictionRun] at h
      subst h
      simp
    | false =>
      rcases hm : st.pred.model with _ | m <;> simp only [hm] at h
      · simp at h
        subst h
        simp [mkSummary, hm]
      · simp [predictionRun] at h
        subst h
        simp [hm]

/-- The output of `runPipeline` on a fresh Coordinator, empty input and
`train_model=False`: everything skipped, used to instantiate witnesses. -/
def outW : OrchState Unit × Summary × Step3 :=
  (⟨freshPState, some dfEmpty, some dfEmpty, none, none⟩,
    ⟨(0, 0), (0, 0), false, none⟩, Step3.skipped)

/-- Witness for the amended C2 on a fresh Coordinator with empty input and
`train_model=False`: the skip branch is taken and the summary reports no
predictions. -/
theorem prediction_gating_amended_witness :
    (outW.2.2 ≠ Step3.skipped ↔
      ((false = true ∧ (if (featureRun cStd dfEmpty none).2.isSome
                        then (featureRun cStd dfEmpty none).2
                        else freshOrchU.target).isSome = true)
       ∨ (false = false ∧ freshOrchU.pred.model.isSome = true)))
    ∧ (outW.2.2 = Step3.skipped →
        outW.1.predictions = freshOrchU.predictions
        ∧ outW.2.1.hasPredictions = freshOrchU.predictions.isSome) :=
  prediction_gating_amended UnitE cStd true freshOrchU dfEmpty none false outW rfl

/-- C5 counterexample: on a fresh Coordinator, run 1 trains with label
column `y` of `dfA`; in run 2 the Feature stage produces no Label Series
(the `none`), yet the Label Series visible to run 2 — its `self.target`,
which run 2's training consumes — is `[0, 1]`, the Label Series of run 1:
a pipeline artifact other than the persisted Model Handle was retained
across runs. -/
theorem cross_run_retention_counterexample :
    ((runPipeline UnitE cStd true freshOrchU dfA (some ("y")) true).toOption.bind
      (fun o1 => (runPipeline UnitE cStd true o1.1 dfB none true).toOption.map
        (fun o2 => (o2.1.target, (featureRun cStd dfB none).2))))
      = some (some (Column.numeric [0, 1]), none) := by decide

/-- C5 (amended): across runs of the same Coordinator, `data` and
`features` are unconditionally overwritten by each run, but `target` is
overwritten only when the Feature stage produces a Label Series (otherwise
the previous run's value is retained) and `predictions` only when the
Prediction stage runs (otherwise the previous run's Prediction Vector is
retained, and the summary reflects it); so retention across runs is not
limited to an explicitly persisted Model Handle. -/
theorem pipeline_state_update_rule {Est : Type} (E : Estimators Est) (std : List ℚ → ℚ)
    (sk : Bool) (st : OrchState Est) (df : Df) (oc : Option String) (tm : Bool)
    (out : OrchState Est × Summary × Step3)
    (h : runPipeline E std sk st df oc tm = Except.ok out) :
    out.1.data = some df
    ∧ out.1.features = some (featureRun std df oc).1
    ∧ out.1.target = (if (featureRun std df oc).2.isSome then (featureRun std df oc).2
                      else st.target)
    ∧ (out.2.2 = Step3.skipped → out.1.predictions = st.predictions) := by
  simp only [runPipeline] at h
  rcases hfr : (featureRun std df oc).2 with _ | t <;> rw [hfr] at h
  · cases tm with
    | true =>
      rcases hst : st.target with _ | t0 <;> simp only [hst] at h
      · simp at h
        subst h
        simp [hst]
      · simp [predictionRun] at h
        subst h
        simp [hst]
    | false =>
      rcases hm : st.pred.model with _ | m <;> simp only [hm] at h
      · simp at h
        subst h
        simp
      · simp [predictionRun] at h
        subst h
        simp
  · cases tm with
    | true =>
      simp [predictionRun] at h
      subst h
      simp
    | false =>
      rcases hm : st.pred.model with _ | m <;> simp only [hm] at h
      · simp at h
        subst h
        simp
      · simp [predictionRun] at h
        subst h
        simp

/-- Witness for the amended C5 on a fresh Coordinator with empty input and
`train_model=False`. -/
theorem pipeline_state_update_rule_witness :
    outW.1.data = some dfEmpty
    ∧ outW.1.features = some (featureRun cStd dfEmpty none).1
    ∧ outW.1.target = (if (featureRun cStd dfEmpty none).2.isSome
                       then (featureRun cStd dfEmpty none).2 else freshOrchU.target)
    ∧ (outW.2.2 = Step3.skipped → outW.1.predictions = freshOrchU.predictions) :=
  pipeline_state_update_rule UnitE cStd true freshOrchU dfEmpty none false outW rfl
